import Mathlib

/-!
Verification development for the grant-chat backend (src/app.py).

Text is modelled as List Char. Python str.lower maps to Char.toLower
(the data involved is ASCII), regular-expression token scans are modelled
by splitting the text into maximal runs of word characters, and Python
dicts keyed by strings are modelled as association lists with
insert-or-overwrite semantics. External effects (the HTTP fetch transport
and the completion provider) are passed in as explicit outcome parameters,
so every function here is a pure, executable translation of the
corresponding Python code.
-/

namespace GrantChat

/-- Coerce a Lean string literal to the List Char representation used
throughout the development. -/
def str (s : String) : List Char := s.data

/-- Python str.lower, character by character. -/
def lowerStr (s : List Char) : List Char := s.map Char.toLower

/-- Python substring membership test, needle in hay. -/
def isSubstring : List Char → List Char → Bool
  | needle, [] => needle.isEmpty
  | needle, c :: cs => needle.isPrefixOf (c :: cs) || isSubstring needle cs

/-- A word character in the sense of the regex class used by app.py
(alphanumeric or underscore; the data involved is ASCII). -/
def isWordChar (c : Char) : Bool := c.isAlphanum || c = '_'

/-- Helper for wordRuns: acc holds the current (reversed) run of word
characters. -/
def wordRunsAux : List Char → List Char → List (List Char)
  | [], acc => if acc.isEmpty then [] else [acc.reverse]
  | c :: cs, acc =>
    if isWordChar c then wordRunsAux cs (c :: acc)
    else if acc.isEmpty then wordRunsAux cs []
    else acc.reverse :: wordRunsAux cs []

/-- The maximal runs of word characters of a text, left to right.  This is
the match list of the regex that findall produces for a word-bounded
token pattern: each run is delimited on both sides by a non-word
character or the end of the text. -/
def wordRuns (s : List Char) : List (List Char) := wordRunsAux s []

/-- The stop-word list of extract_keywords in app.py. -/
def stop_words : List (List Char) :=
  [str "a", str "an", str "the", str "is", str "are", str "in", str "on",
   str "for", str "of", str "and", str "to", str "what", str "who",
   str "tell", str "me", str "about", str "grant", str "grants",
   str "more", str "details", str "detail", str "help", str "write",
   str "financial", str "budget", str "funding"]

/-- extract_keywords from app.py: lower-case the text, take the
word-bounded tokens, and drop stop words and tokens of length at most 2.
The Python function returns a set; it is modelled by the filtered token
list, which has the same membership and the same emptiness. -/
def extract_keywords (text : List Char) : List (List Char) :=
  (wordRuns (lowerStr text)).filter
    (fun w => !stop_words.contains w && decide (2 < w.length))

/-- A grant record (src/app.py data model).  Only the fields the core
logic reads are modelled; the remaining descriptive fields are carried
opaquely by the real code and never branched on.  A missing JSON field is
none. -/
structure Grant where
  opportunityID : Option (List Char)
  opportunityTitle : Option (List Char)
  description : Option (List Char)
  opportunityCategory : Option (List Char)
  link : Option (List Char)
  deriving Repr, DecidableEq, Inhabited

/-- Python truthiness of an optional string: none and the empty string
are falsy; a non-empty string is returned. -/
def truthyStr : Option (List Char) → Option (List Char)
  | some (c :: cs) => some (c :: cs)
  | _ => none

/-- Association-list lookup modelling Python dict access by key. -/
def alookup : List (List Char × Grant) → List Char → Option Grant
  | [], _ => none
  | (k, v) :: rest, key => if k == key then some v else alookup rest key

/-- Replace the value stored under a key, keeping entry order. -/
def overwrite : List (List Char × Grant) → List Char → Grant →
    List (List Char × Grant)
  | [], _, _ => []
  | (k1, v1) :: rest, k, v =>
    if k1 == k then (k, v) :: overwrite rest k v
    else (k1, v1) :: overwrite rest k v

/-- Dict assignment: overwrite the binding when the key is present,
append it otherwise (Python dicts keep insertion order). -/
def dictInsert (m : List (List Char × Grant)) (k : List Char) (v : Grant) :
    List (List Char × Grant) :=
  if (alookup m k).isSome then overwrite m k v
  else m ++ [(k, v)]

/-- One iteration of the load loop of app.py: a record with a truthy
opportunityID is assigned into the lookup, any other record is skipped
(but only for the lookup; the list itself is left as parsed). -/
def loadStep (m : List (List Char × Grant)) (g : Grant) :
    List (List Char × Grant) :=
  match truthyStr g.opportunityID with
  | some k => dictInsert m k g
  | none => m

/-- The startup load in app.py: grant_data is the parsed JSON list as-is,
and grant_data_by_id maps opportunityID to record for every record whose
opportunityID is truthy. -/
def loadGrantData (raw : List Grant) :
    List Grant × List (List Char × Grant) :=
  (raw, raw.foldl loadStep [])

/-- Does a word-bounded token qualify as a potential opportunity id:
6 or 7 consecutive digits (the regex used by find_opportunity_id). -/
def digitTok (r : List Char) : Bool :=
  r.all Char.isDigit && (r.length == 6 || r.length == 7)

/-- The list the regex findall of find_opportunity_id produces: the
word-bounded tokens that consist of exactly 6 or 7 digits, in
left-to-right scan order. -/
def potential_ids (text : List Char) : List (List Char) :=
  (wordRuns text).filter digitTok

/-- The loop body of find_opportunity_id: return the first candidate
that is a key of the lookup. -/
def findIdLoop (lookup : List (List Char × Grant)) :
    List (List Char) → Option (List Char)
  | [] => none
  | pid :: rest =>
    if (alookup lookup pid).isSome then some pid else findIdLoop lookup rest

/-- find_opportunity_id from app.py. -/
def find_opportunity_id (text : List Char)
    (lookup : List (List Char × Grant)) : Option (List Char) :=
  findIdLoop lookup (potential_ids text)

/-- The search text of select_relevant_grants_by_keyword: title,
description and category joined by single spaces, lower-cased; a missing
field defaults to the empty string, as with dict.get. -/
def searchText (g : Grant) : List Char :=
  lowerStr (g.opportunityTitle.getD [] ++ str " " ++ g.description.getD []
    ++ str " " ++ g.opportunityCategory.getD [])

/-- Does a record match: some keyword is a substring of its search text. -/
def grantMatches (kws : List (List Char)) (g : Grant) : Bool :=
  kws.any (fun k => isSubstring k (searchText g))

/-- The accumulation loop of select_relevant_grants_by_keyword: cnt is
the number of matches already collected; the loop appends a matching
record and stops as soon as the count reaches maxGrants. -/
def selectLoop (kws : List (List Char)) (maxGrants : Nat) :
    List Grant → Nat → List Grant
  | [], _ => []
  | g :: gs, cnt =>
    if grantMatches kws g then
      if maxGrants ≤ cnt + 1 then [g]
      else g :: selectLoop kws maxGrants gs (cnt + 1)
    else selectLoop kws maxGrants gs cnt

/-- select_relevant_grants_by_keyword from app.py (maxGrants is the
max_grants parameter, MAX_CONTEXT_GRANTS = 5 at the call sites). -/
def select_relevant_grants_by_keyword (question : List Char)
    (allGrantsList : List Grant) (maxGrants : Nat) : List Grant :=
  let kws := extract_keywords question
  if kws.isEmpty then [] else selectLoop kws maxGrants allGrantsList 0

/-- MAX_CONTEXT_GRANTS in app.py. -/
def MAX_CONTEXT_GRANTS : Nat := 5

/-- MAX_HISTORY_LENGTH in app.py. -/
def MAX_HISTORY_LENGTH : Nat := 10

/-- MAX_FETCHED_CONTENT_LENGTH in app.py. -/
def MAX_FETCHED_CONTENT_LENGTH : Nat := 4000

/-- Decimal digits of a number, as text. -/
def natStr (n : Nat) : List Char := (toString n).data

/-- What the HTTP transport delivered for one fetch, abstracting the
requests library: a response (status, content-type header, decoded body
text, and the texts BeautifulSoup would extract from a main content
container and from the body tag, when such tags exist), or one of the
exception classes the code catches.  requestExc carries the description
of a transport-level RequestException. -/
inductive FetchOutcome where
  | ok (status : Nat) (contentType : List Char) (rawText : List Char)
      (mainText : Option (List Char)) (bodyText : Option (List Char))
  | timeout
  | requestExc (desc : List Char)
  | otherExc
  deriving Repr, DecidableEq

/-- The description of the HTTPError that response.raise_for_status
raises on a 4xx or 5xx status (requests formats it from the status, the
reason phrase and the url; the reason phrase is elided here). -/
def httpErrorDesc (status : Nat) (url : List Char) : List Char :=
  natStr status ++
    (if status < 500 then str " Client Error for url: "
     else str " Server Error for url: ") ++ url

/-- fetch_with_requests_bs4 from app.py, as a function of the url and of
the transport outcome.  raise_for_status raises exactly on 4xx/5xx
statuses, and that HTTPError is caught by the RequestException handler;
a non-HTML content type returns the raw body text verbatim; an HTML one
returns the main-container text when such a container exists, else the
body text, else a tagged note.  Every branch returns a string: the
function is total, no exception escapes. -/
def fetch_with_requests_bs4 (url : List Char) (outcome : FetchOutcome) :
    List Char :=
  match outcome with
  | .ok status contentType rawText mainText bodyText =>
    if 400 ≤ status ∧ status < 600 then
      str "[Error fetching content with Requests: "
        ++ httpErrorDesc status url ++ str "]"
    else if !isSubstring (str "html") (lowerStr contentType) then
      (if rawText.isEmpty then str "[No text content returned]" else rawText)
    else
      match mainText with
      | some mc => mc
      | none =>
        match bodyText with
        | some b => b
        | none => str "[Could not find body tag]"
  | .timeout =>
    str "[Error fetching content with Requests: Timeout connecting to "
      ++ url ++ str "]"
  | .requestExc desc =>
    str "[Error fetching content with Requests: " ++ desc ++ str "]"
  | .otherExc =>
    str "[Unexpected error fetching content with Requests for "
      ++ url ++ str "]"

/-- The failure string fetch_with_requests_bs4 produces when
raise_for_status raises on a 4xx/5xx response. -/
def httpFailureMsg (status : Nat) (url : List Char) : List Char :=
  str "[Error fetching content with Requests: "
    ++ httpErrorDesc status url ++ str "]"

/-- The condition on line 272 of app.py under which the chat handler
treats a fetch result as page content (and truncates it) rather than as
a failure or status note: non-empty and not starting with any of the
three failure markers. -/
def treatedAsContent (raw : List Char) : Bool :=
  !raw.isEmpty && !(str "[Error").isPrefixOf raw
    && !(str "[No content").isPrefixOf raw
    && !(str "[Could not find").isPrefixOf raw

/-- A naive stand-in for json.dumps on one grant record (the core never
inspects the serialized text, it only forwards it). -/
def jsonDumpGrant (g : Grant) : List Char :=
  let fld : Option (List Char) → List Char := fun v =>
    match v with
    | none => str "null"
    | some s => '\x22' :: s ++ ['\x22']
  str "\x7b\x22opportunityID\x22: " ++ fld g.opportunityID
    ++ str ", \x22opportunityTitle\x22: " ++ fld g.opportunityTitle
    ++ str ", \x22description\x22: " ++ fld g.description
    ++ str ", \x22opportunityCategory\x22: " ++ fld g.opportunityCategory
    ++ str ", \x22link\x22: " ++ fld g.link ++ str "\x7d"

/-- json.dumps of a list of grant records. -/
def jsonDumpGrants (gs : List Grant) : List Char :=
  str "[" ++ List.intercalate (str ", ") (gs.map jsonDumpGrant) ++ str "]"

/-- The assembled per-request context of the chat handler (its local
variables just before the completion call): the records selected for
context, the serialized grant context string (empty when no record was
selected), the fetched-content status (absent when no fetch happened),
and the serialized financial context string (empty when no financial
data is loaded). -/
structure AssembledContext where
  selectedGrants : List Grant
  contextGrantsJsonStr : List Char
  fetchedContentStatus : Option (List Char)
  internalFinancialContextStr : List Char
  deriving Repr, DecidableEq

/-- is_general_request as a function of the lower-cased question. -/
def generalOfLower (lq : List Char) : Bool :=
  (isSubstring (str "write") lq && isSubstring (str "grant") lq)
    || isSubstring (str "budget") lq
    || (isSubstring (str "financial") lq && isSubstring (str "district") lq)
    || isSubstring (str "funding need") lq

/-- The is_general_request classification computed by the chat handler
(lines 253-256 of app.py). -/
def is_general_request (question : List Char) : Bool :=
  generalOfLower (lowerStr question)

/-- Lines 247-302 of the chat handler: decide the context strategy and
build the assembled context.  fetchFn abstracts one call of
fetch_with_requests_bs4 (url to returned string); financial is the
loaded financial JSON already serialized, none when missing or falsy. -/
def assembleContext (fetchFn : List Char → List Char)
    (grantData : List Grant) (lookup : List (List Char × Grant))
    (financial : Option (List Char)) (question : List Char) :
    AssembledContext :=
  if is_general_request question then
    ⟨[], [], none, financial.getD []⟩
  else
    let pair : List Grant × Option (List Char) :=
      match find_opportunity_id question lookup with
      | some targetGrantId =>
        match alookup lookup targetGrantId with
        | some specificGrant =>
          let fetched : Option (List Char) :=
            match truthyStr specificGrant.link with
            | some grantLink =>
              let raw := fetchFn grantLink
              if treatedAsContent raw then
                some (raw.take MAX_FETCHED_CONTENT_LENGTH)
              else if !raw.isEmpty then some raw
              else some (str "[No content returned from fetch attempt.]")
            | none => none
          ([specificGrant], fetched)
        | none =>
          (select_relevant_grants_by_keyword question grantData
            MAX_CONTEXT_GRANTS, none)
      | none =>
        (select_relevant_grants_by_keyword question grantData
          MAX_CONTEXT_GRANTS, none)
    ⟨pair.1,
     (if pair.1.isEmpty then [] else jsonDumpGrants pair.1),
     pair.2,
     financial.getD []⟩

/-- One message of a conversation. -/
structure Turn where
  role : List Char
  content : List Char
  deriving Repr, DecidableEq, Inhabited

/-- The system prompt of get_openai_response (app.py lines 154-176). -/
def system_prompt : List Char := str
  ("You are a helpful AI assistant for Springfield Independent School District, specializing in grant information. "
   ++ "Your primary goal is to answer questions about specific grants based *only* on the provided context: "
   ++ "the \x27JSON Grant Data Context\x27 (external grant opportunities) and the \x27Fetched Webpage Content Status\x27 (live details of a specific external grant). "
   ++ "You also have access to \x27Internal School District Financial Context\x27.\n\n"
   ++ "RULES FOR ANSWERING ABOUT SPECIFIC EXTERNAL GRANTS:\n"
   ++ "* Base answers *strictly* on the provided JSON grant data and fetched web content.\n"
   ++ "* If \x27Fetched Webpage Content Status\x27 contains actual content, prioritize it for specific details about one grant.\n"
   ++ "* If \x27Fetched Webpage Content Status\x27 indicates an error or no content, inform the user you couldn\x27t retrieve live details and rely *only* on the JSON grant data and history.\n"
   ++ "* If the information needed is not present in the provided context or history, clearly state that.\n"
   ++ "* Do not make up information or use external knowledge for external grant-specific questions.\n"
   ++ "* Refer to specific grants by title or ID when possible. Provide the grant link if relevant.\n\n"
   ++ "USING INTERNAL SCHOOL DISTRICT FINANCIAL CONTEXT:\n"
   ++ "* If the user\x27s question relates to the school district\x27s own finances, budget, needs, or how a potential grant aligns with these, "
   ++ "use the \x27Internal School District Financial Context\x27 to inform your answer. "
   ++ "For example, if asked about the district\x27s budget for technology or what the district needs funding for.\n"
   ++ "* When discussing applying for a grant, you can use the internal financial context to explain why the district needs the grant or how it fits into existing priorities/budget.\n\n"
   ++ "EXCEPTION - GENERAL GRANT WRITING HELP:\n"
   ++ "* If the user explicitly asks for general help or tips on *writing* a grant, you MAY provide general advice. "
   ++ "This advice should be clearly marked as general. Do NOT offer to write the grant *for* the user.\n"
   ++ "* Keep grant writing advice concise (e.g., understanding requirements, clear objectives, budget planning, proofreading).\n\n"
   ++ "Always be concise and helpful. If context is missing for any part of a question, state that clearly.")

/-- The Python slice full_history[-(MAX_HISTORY_LENGTH * 2):-1]: all of
the last 20 entries except the final one. -/
def limitedHistory (h : List Turn) : List Turn :=
  (h.drop (h.length - MAX_HISTORY_LENGTH * 2)).dropLast

/-- The content of the final user message, with the labeled fenced
context blocks appended (lines 189-199 of app.py).  A block is included
exactly when its string is truthy. -/
def userContentParts (questionContent grantJson : List Char)
    (fetched : Option (List Char)) (finJson : List Char) : List Char :=
  str "User Question:\n" ++ questionContent
    ++ (if grantJson.isEmpty then []
        else str "\n\nJSON Grant Data Context (External Opportunities):\n```json\n"
          ++ grantJson ++ str "\n```")
    ++ (match fetched with
        | some s =>
          if s.isEmpty then []
          else str "\n\nFetched Webpage Content Status (External Opportunity Detail):\n```\n"
            ++ s ++ str "\n```"
        | none => [])
    ++ (if finJson.isEmpty then []
        else str "\n\nInternal School District Financial Context:\n```json\n"
          ++ finJson ++ str "\n```")

/-- messages_for_api as built by get_openai_response: the system prompt,
the truncated history, and the current user turn with inline context. -/
def messagesForApi (fullHistory : List Turn) (grantJson : List Char)
    (fetched : Option (List Char)) (finJson : List Char) : List Turn :=
  ⟨str "system", system_prompt⟩ ::
    (limitedHistory fullHistory ++
      [⟨str "user",
        userContentParts (fullHistory.getLastD ⟨[], []⟩).content grantJson
          fetched finJson⟩])

/-- What the completion provider did for one request, abstracting the
OpenAI client: a successful completion text, or one of the exception
classes get_openai_response catches.  contextLength records whether the
provider error message mentions an exceeded context length. -/
inductive LlmOutcome where
  | success (text : List Char)
  | authError (detail : Option (List Char))
  | rateLimit
  | openaiError (errType : List Char) (contextLength : Bool)
  | otherExc (errType : List Char)
  deriving Repr, DecidableEq

/-- Python str.strip on the characters involved. -/
def isSpaceChar (c : Char) : Bool :=
  c = ' ' || c = '\t' || c = '\n' || c = '\r'

/-- Trim leading and trailing whitespace. -/
def stripStr (s : List Char) : List Char :=
  ((s.dropWhile isSpaceChar).reverse.dropWhile isSpaceChar).reverse

/-- The answer string get_openai_response produces from the provider
outcome (the try/except arms of lines 202-231). -/
def llmAnswer : LlmOutcome → List Char
  | .success t => stripStr t
  | .authError detail =>
    str "Sorry, there\x27s an issue with the chatbot configuration (Authentication Error"
      ++ (match detail with
          | some d => str " (" ++ d ++ str ")"
          | none => [])
      ++ str "). Please check the API key."
  | .rateLimit =>
    str "Sorry, the chatbot is currently experiencing high traffic (Rate Limit Exceeded). Please try again later."
  | .openaiError errType contextLength =>
    if contextLength then
      str "Sorry, the conversation history or the provided grant data is too long for the AI model to process. Please try starting a new topic or asking a more specific question."
    else
      str "Sorry, I encountered an error trying to reach the AI model ("
        ++ errType ++ str ")."
  | .otherExc errType =>
    str "Sorry, I encountered an unexpected error (" ++ errType
      ++ str ") while processing your request."

/-- get_openai_response from app.py.  clientOk is whether the module
level OpenAI client was initialized; llm abstracts the completion call
(messages to outcome).  Returns none exactly when the Python function
raises (indexing full_history[-1] of an empty history); every other
path returns an answer string. -/
def get_openai_response (clientOk : Bool) (llm : List Turn → LlmOutcome)
    (fullHistory : List Turn) (grantJson : List Char)
    (fetched : Option (List Char)) (finJson : List Char) :
    Option (List Char) :=
  if !clientOk then
    some (str "Sorry, the chatbot is not configured correctly (OpenAI client issue).")
  else
    match fullHistory.getLast? with
    | none => none
    | some latest =>
      if latest.role ≠ str "user" then
        some (str "Sorry, there was an internal error processing the conversation history.")
      else
        some (llmAnswer (llm (messagesForApi fullHistory grantJson fetched finJson)))

/-- The history field of an inbound request body: absent, a list of
turns, or JSON of some other shape (for which list concatenation in the
handler raises a TypeError). -/
inductive HistoryField where
  | absent
  | turns (h : List Turn)
  | notAList
  deriving Repr, DecidableEq

/-- An inbound chat request body.  question is none when the field is
missing (or the body is not JSON at all). -/
structure ChatRequest where
  question : Option (List Char)
  history : HistoryField
  deriving Repr, DecidableEq

/-- The three response shapes of the chat endpoint: 200 with an answer,
400 with an error (client error), 500 with an error (server error). -/
inductive ChatResponse where
  | answer (s : List Char)
  | clientError (s : List Char)
  | serverError (s : List Char)
  deriving Repr, DecidableEq

/-- The turns of a history field, none when concatenating it with a
one-element list would raise. -/
def historyTurns : HistoryField → Option (List Turn)
  | .absent => some []
  | .turns h => some h
  | .notAList => none

/-- The /chat endpoint handler of app.py as a function of the request
body, the loaded data, and the two external outcomes (fetch transport
and completion provider).  A raised exception anywhere inside the try
block becomes the generic 500 response. -/
def chat (fetchFn : List Char → List Char) (clientOk : Bool)
    (llm : List Turn → LlmOutcome) (grantData : List Grant)
    (lookup : List (List Char × Grant)) (financial : Option (List Char))
    (req : ChatRequest) : ChatResponse :=
  match req.question with
  | none => .clientError (str "Missing \x27question\x27 in request body")
  | some q =>
    let ctx := assembleContext fetchFn grantData lookup financial q
    match historyTurns req.history with
    | none => .serverError (str "An internal server error occurred.")
    | some conversationHistory =>
      let currentTurnHistory := conversationHistory ++ [⟨str "user", q⟩]
      match get_openai_response clientOk llm currentTurnHistory
          ctx.contextGrantsJsonStr ctx.fetchedContentStatus
          ctx.internalFinancialContextStr with
      | some ans => .answer ans
      | none => .serverError (str "An internal server error occurred.")

/-! ## Concrete fixtures used by witnesses and counterexamples -/

/-- A record with id 123456 and no link. -/
def grant123456 : Grant :=
  ⟨some (str "123456"), some (str "Rural Water Improvement"),
   some (str "improve rural water systems"), some (str "ENV"), none⟩

/-- A one-record lookup keyed by 123456. -/
def lookup123456 : List (List Char × Grant) := [(str "123456", grant123456)]

/-- A record whose fields mention erosion (id f is a 6-digit string). -/
def erosionGrant (f : String) : Grant :=
  ⟨some (str f), some (str "Erosion Response"),
   some (str "soil erosion control measures"), some (str "ENV"), none⟩

/-- Seven records that all match the keyword erosion, in source order. -/
def erosionGrants : List Grant :=
  [erosionGrant "100001", erosionGrant "100002", erosionGrant "100003",
   erosionGrant "100004", erosionGrant "100005", erosionGrant "100006",
   erosionGrant "100007"]

/-- A record with no opportunityID whose text matches erosion keywords. -/
def grantNoId : Grant :=
  ⟨none, some (str "Erosion Control Assistance"),
   some (str "help with soil erosion"), some (str "ENV"), none⟩

/-- Two records sharing one opportunityID. -/
def grantDupA : Grant :=
  ⟨some (str "300000"), some (str "First Title"), none, none, none⟩

/-- Two records sharing one opportunityID (second). -/
def grantDupB : Grant :=
  ⟨some (str "300000"), some (str "Second Title"), none, none, none⟩

/-- A url of 4001 characters. -/
def longUrl : List Char := List.replicate 4001 'a'

/-- A record with id 200000 whose link is the 4001-character url. -/
def grantLongLink : Grant :=
  ⟨some (str "200000"), some (str "T"), some (str "D"), some (str "C"),
   some longUrl⟩

/-- A fetcher whose transport outcome is always a timeout. -/
def timeoutFetcher : List Char → List Char :=
  fun u => fetch_with_requests_bs4 u .timeout

/-- A record with id 400000 and a short link. -/
def grantShortLink : Grant :=
  ⟨some (str "400000"), some (str "T"), some (str "D"), some (str "C"),
   some (str "http://example.org/g")⟩

/-- A fetcher whose transport outcome is always a 404 response. -/
def notFoundFetcher : List Char → List Char :=
  fun u => fetch_with_requests_bs4 u (.ok 404 (str "text/html") [] none none)

/-- A fetcher that always succeeds with a fixed page text. -/
def pageFetcher : List Char → List Char :=
  fun u =>
    fetch_with_requests_bs4 u
      (.ok 200 (str "text/html") (str "raw") (some (str "PAGE CONTENT")) none)

/-- A completion provider that always succeeds with a fixed text. -/
def okLlm : List Turn → LlmOutcome := fun _ => .success (str "fine")

/-- A user turn with the given content. -/
def turnU (s : String) : Turn := ⟨str "user", str s⟩

/-- An assistant turn with the given content. -/
def turnA (s : String) : Turn := ⟨str "assistant", str s⟩

/-! ## Helper lemmas -/

/-- Boolean prefix test in terms of an append decomposition. -/
theorem isPrefixOf_eq_true_iff (p l : List Char) :
    p.isPrefixOf l = true ↔ ∃ t, l = p ++ t := by
  induction p generalizing l with
  | nil => simp [List.isPrefixOf]
  | cons c cs ih =>
    cases l with
    | nil => simp [List.isPrefixOf]
    | cons d ds =>
      simp only [List.isPrefixOf, Bool.and_eq_true, beq_iff_eq, ih,
        List.cons_append, List.cons.injEq]
      constructor
      · rintro ⟨rfl, t, rfl⟩; exact ⟨t, rfl, rfl⟩
      · rintro ⟨t, rfl, rfl⟩; exact ⟨rfl, t, rfl⟩

/-- The Python substring test in terms of an append decomposition. -/
theorem isSubstring_iff (n h : List Char) :
    isSubstring n h = true ↔ ∃ u v, h = u ++ n ++ v := by
  induction h with
  | nil =>
    simp only [isSubstring, List.isEmpty_iff]
    constructor
    · rintro rfl; exact ⟨[], [], rfl⟩
    · rintro ⟨u, v, huv⟩
      rcases u with _ | ⟨x, xs⟩
      · rcases n with _ | ⟨y, ys⟩
        · rfl
        · simp at huv
      · simp at huv
  | cons c cs ih =>
    simp only [isSubstring, Bool.or_eq_true, ih, isPrefixOf_eq_true_iff]
    constructor
    · rintro (⟨t, ht⟩ | ⟨u, v, huv⟩)
      · exact ⟨[], t, by simp [ht]⟩
      · exact ⟨c :: u, v, by simp [huv]⟩
    · rintro ⟨u, v, huv⟩
      rcases u with _ | ⟨x, xs⟩
      · exact Or.inl ⟨v, by simpa using huv⟩
      · simp only [List.cons_append, List.cons.injEq] at huv
        exact Or.inr ⟨xs, v, huv.2⟩

/-- The id-scanning loop returns only keys of the lookup, and only the
first candidate that is a key. -/
theorem findIdLoop_eq_some (lookup : List (List Char × Grant)) :
    ∀ (l : List (List Char)) (idv : List Char),
      findIdLoop lookup l = some idv →
      (alookup lookup idv).isSome = true ∧
      ∃ pre post, l = pre ++ idv :: post ∧
        ∀ p ∈ pre, alookup lookup p = none := by
  intro l
  induction l with
  | nil => intro idv h; simp [findIdLoop] at h
  | cons pid rest ih =>
    intro idv h
    by_cases hk : (alookup lookup pid).isSome = true
    · rw [findIdLoop, if_pos hk] at h
      obtain rfl : pid = idv := by injection h
      exact ⟨hk, [], rest, rfl, by simp⟩
    · rw [findIdLoop, if_neg hk] at h
      obtain ⟨hmem, pre, post, hl, hpre⟩ := ih idv h
      refine ⟨hmem, pid :: pre, post, by simp [hl], ?_⟩
      intro p hp
      rcases List.mem_cons.mp hp with rfl | hp'
      · exact Option.not_isSome_iff_eq_none.mp (by simpa using hk)
      · exact hpre p hp'

/-- The id-scanning loop finds nothing exactly when no candidate is a
key. -/
theorem findIdLoop_eq_none_iff (lookup : List (List Char × Grant))
    (l : List (List Char)) :
    findIdLoop lookup l = none ↔ ∀ t ∈ l, alookup lookup t = none := by
  induction l with
  | nil => simp [findIdLoop]
  | cons pid rest ih =>
    by_cases hk : (alookup lookup pid).isSome = true
    · rw [findIdLoop, if_pos hk]
      simp only [false_iff, reduceCtorEq]
      intro hall
      rw [hall pid (List.mem_cons_self pid rest)] at hk
      simp at hk
    · rw [findIdLoop, if_neg hk, ih]
      constructor
      · intro hall t ht
        rcases List.mem_cons.mp ht with rfl | ht'
        · exact Option.not_isSome_iff_eq_none.mp (by simpa using hk)
        · exact hall t ht'
      · intro hall t ht
        exact hall t (List.mem_cons_of_mem _ ht)

/-- The early-stopping accumulation loop equals filter-then-take while
the collected count is below the cap. -/
theorem selectLoop_eq_take (kws : List (List Char)) (maxGrants : Nat) :
    ∀ (gs : List Grant) (cnt : Nat), cnt < maxGrants →
      selectLoop kws maxGrants gs cnt =
        (gs.filter (grantMatches kws)).take (maxGrants - cnt) := by
  intro gs
  induction gs with
  | nil => intro cnt _; simp [selectLoop]
  | cons g rest ih =>
    intro cnt hcnt
    by_cases hm : grantMatches kws g = true
    · by_cases hstop : maxGrants ≤ cnt + 1
      · have h1 : maxGrants - cnt = 1 := by omega
        simp [selectLoop, hm, hstop, List.filter_cons, h1]
      · have h2 : cnt + 1 < maxGrants := by omega
        have h3 : maxGrants - cnt = (maxGrants - (cnt + 1)) + 1 := by omega
        simp [selectLoop, hm, hstop, List.filter_cons, h3, ih (cnt + 1) h2]
    · simp [selectLoop, hm, List.filter_cons, ih cnt hcnt]

/-! ## Claim theorems -/

/-- C3: find_opportunity_id returns the first word-bounded 6-7 digit
token, in left-to-right scan order, that is a key of the lookup; it
never returns an identifier absent from the lookup; and it returns none
exactly when no such token is a key. -/
theorem find_opportunity_id_first_key (text : List Char)
    (lookup : List (List Char × Grant)) :
    (∀ idv, find_opportunity_id text lookup = some idv →
      (alookup lookup idv).isSome = true ∧
      ∃ pre post, potential_ids text = pre ++ idv :: post ∧
        ∀ p ∈ pre, alookup lookup p = none) ∧
    (find_opportunity_id text lookup = none ↔
      ∀ t ∈ potential_ids text, alookup lookup t = none) :=
  ⟨fun idv h => findIdLoop_eq_some lookup _ idv h,
   findIdLoop_eq_none_iff lookup _⟩

/-- Witness for C3 on a concrete question holding a non-key candidate
before the key 123456. -/
theorem find_opportunity_id_first_key_witness :
    find_opportunity_id (str "ids 111111 and 123456") lookup123456 =
      some (str "123456") ∧
    ((alookup lookup123456 (str "123456")).isSome = true ∧
      ∃ pre post,
        potential_ids (str "ids 111111 and 123456") =
          pre ++ (str "123456") :: post ∧
        ∀ p ∈ pre, alookup lookup123456 p = none) :=
  ⟨by decide,
   (find_opportunity_id_first_key (str "ids 111111 and 123456")
     lookup123456).1 (str "123456") (by decide)⟩

/-- C10: every candidate the identifier scan produces is a maximal
word-bounded run of exactly 6 or 7 digits; in particular, when a lookup
key occurs only as a proper substring of a longer digit run (123456
inside 12345678), the scan produces no candidate at all and
find_opportunity_id returns none rather than the key. -/
theorem digit_token_maximality :
    (∀ text r, r ∈ potential_ids text →
      r.all Char.isDigit = true ∧ (r.length = 6 ∨ r.length = 7)) ∧
    potential_ids (str "12345678") = [] ∧
    find_opportunity_id (str "12345678") lookup123456 = none ∧
    (alookup lookup123456 (str "123456")).isSome = true := by
  refine ⟨?_, by decide, by decide, by decide⟩
  intro text r hr
  have h := (List.mem_filter.mp hr).2
  simp only [digitTok, Bool.and_eq_true, Bool.or_eq_true, beq_iff_eq] at h
  exact ⟨h.1, h.2⟩

/-- Witness for C10 applying the token-shape part at a concrete text. -/
theorem digit_token_maximality_witness :
    (str "123456").all Char.isDigit = true ∧
    ((str "123456").length = 6 ∨ (str "123456").length = 7) :=
  digit_token_maximality.1 (str "a 123456") (str "123456") (by decide)

/-- C4: keyword selection returns the empty list when the question
yields no keywords (in particular when every word-bounded token of the
question is a stop word or of length at most 2), and otherwise returns
exactly the first up-to-maxGrants records in stored order whose
lower-cased title-description-category text contains some extracted
keyword as a substring. -/
theorem keyword_selection_spec (q : List Char) (grants : List Grant)
    (maxGrants : Nat) (hmax : 1 ≤ maxGrants) :
    (extract_keywords q = [] →
      select_relevant_grants_by_keyword q grants maxGrants = []) ∧
    ((∀ w ∈ wordRuns (lowerStr q), w ∈ stop_words ∨ w.length ≤ 2) →
      extract_keywords q = [] ∧
      select_relevant_grants_by_keyword q grants maxGrants = []) ∧
    select_relevant_grants_by_keyword q grants maxGrants =
      (if (extract_keywords q).isEmpty then []
       else (grants.filter (grantMatches (extract_keywords q))).take
         maxGrants) ∧
    (∀ g, grantMatches (extract_keywords q) g = true ↔
      ∃ k ∈ extract_keywords q, ∃ u v, searchText g = u ++ k ++ v) := by
  have hempty : extract_keywords q = [] →
      select_relevant_grants_by_keyword q grants maxGrants = [] := by
    intro h
    simp [select_relevant_grants_by_keyword, h]
  refine ⟨hempty, ?_, ?_, ?_⟩
  · intro hall
    have hkw : extract_keywords q = [] := by
      unfold extract_keywords
      rw [List.filter_eq_nil_iff]
      intro w hw
      rcases hall w hw with hstop | hshort
      · simp [hstop]
      · simp [hshort]
    exact ⟨hkw, hempty hkw⟩
  · unfold select_relevant_grants_by_keyword
    by_cases hkw : (extract_keywords q).isEmpty = true
    · simp [hkw]
    · simp only [hkw, Bool.false_eq_true, if_false]
      rw [selectLoop_eq_take (extract_keywords q) maxGrants grants 0
        (by omega), Nat.sub_zero]
  · intro g
    unfold grantMatches
    rw [List.any_eq_true]
    constructor
    · rintro ⟨k, hk, hsub⟩
      exact ⟨k, hk, (isSubstring_iff k (searchText g)).mp hsub⟩
    · rintro ⟨k, hk, hdec⟩
      exact ⟨k, hk, (isSubstring_iff k (searchText g)).mpr hdec⟩

/-- Witness for C4: seven records match the keyword question and exactly
the first five, in source order, are selected. -/
theorem keyword_selection_spec_witness :
    select_relevant_grants_by_keyword (str "erosion control")
      erosionGrants 5 = erosionGrants.take 5 := by
  have h := (keyword_selection_spec (str "erosion control") erosionGrants 5
    (by decide)).2.2.1
  rw [h]
  decide

/-- A prefix test succeeds on an append whose left part extends the
pattern. -/
theorem isPrefixOf_append_of (p a b : List Char) (h : ∃ t, a = p ++ t) :
    p.isPrefixOf (a ++ b) = true := by
  obtain ⟨t, rfl⟩ := h
  exact (isPrefixOf_eq_true_iff p _).mpr ⟨t ++ b, by simp⟩

/-- C5 counterexample: with a 4001-character link and a timed-out
transport, the failure string captured on the specific-record path is
stored as the fetched-content status untruncated, so the fetch result
forwarded to the completion requester exceeds the fixed maximum of 4000
characters. -/
theorem error_status_forwarded_untruncated :
    MAX_FETCHED_CONTENT_LENGTH <
      ((assembleContext timeoutFetcher [grantLongLink]
          [(str "200000", grantLongLink)] none
          (str "200000")).fetchedContentStatus.getD []).length := by
  have h : (assembleContext timeoutFetcher [grantLongLink]
      [(str "200000", grantLongLink)] none
      (str "200000")).fetchedContentStatus =
      some (str "[Error fetching content with Requests: Timeout connecting to "
        ++ longUrl ++ str "]") := by rfl
  rw [h, Option.getD_some]
  simp only [List.length_append, longUrl, List.length_replicate]
  decide

/-- C5 amended: the fetcher itself never truncates (the extracted main
text, or the raw non-HTML body, is returned whole), and on the
specific-record path a fetch result that the handler treats as page
content is truncated to at most 4000 characters before forwarding — but
a result recognized as a failure or status string is forwarded whole. -/
theorem fetch_truncation_policy :
    (∀ (url ctype raw mc : List Char) (bodyT : Option (List Char))
       (status : Nat), ¬(400 ≤ status ∧ status < 600) →
      isSubstring (str "html") (lowerStr ctype) = true →
      fetch_with_requests_bs4 url (.ok status ctype raw (some mc) bodyT) =
        mc) ∧
    (∀ (url ctype raw : List Char) (mt bt : Option (List Char))
       (status : Nat), ¬(400 ≤ status ∧ status < 600) →
      isSubstring (str "html") (lowerStr ctype) = false → raw ≠ [] →
      fetch_with_requests_bs4 url (.ok status ctype raw mt bt) = raw) ∧
    (∀ (fetchFn : List Char → List Char) (grantData : List Grant)
       (lookup : List (List Char × Grant)) (fin : Option (List Char))
       (q tid link : List Char) (g : Grant),
      is_general_request q = false →
      find_opportunity_id q lookup = some tid →
      alookup lookup tid = some g →
      truthyStr g.link = some link →
      treatedAsContent (fetchFn link) = true →
      (assembleContext fetchFn grantData lookup fin q).fetchedContentStatus =
        some ((fetchFn link).take MAX_FETCHED_CONTENT_LENGTH) ∧
      ((fetchFn link).take MAX_FETCHED_CONTENT_LENGTH).length ≤
        MAX_FETCHED_CONTENT_LENGTH) := by
  refine ⟨?_, ?_, ?_⟩
  · intro url ctype raw mc bodyT status hst hhtml
    simp [fetch_with_requests_bs4, hst, hhtml]
  · intro url ctype raw mt bt status hst hhtml hraw
    simp [fetch_with_requests_bs4, hst, hhtml, hraw]
  · intro fetchFn grantData lookup fin q tid link g hgen hfind hget hlink
      htreat
    constructor
    · unfold assembleContext
      simp [hgen, hfind, hget, hlink, htreat]
    · exact List.length_take_le _ _

/-- Witness for the amended C5: a 200 HTML response with a main
container is returned whole by the fetcher, and a content-shaped fetch
result is truncated on the specific-record path. -/
theorem fetch_truncation_policy_witness :
    fetch_with_requests_bs4 (str "u")
      (.ok 200 (str "text/html") (str "raw") (some (str "PAGE CONTENT"))
        none) = str "PAGE CONTENT" ∧
    (assembleContext pageFetcher [grantShortLink]
      [(str "400000", grantShortLink)] none
      (str "400000")).fetchedContentStatus =
      some ((pageFetcher (str "http://example.org/g")).take
        MAX_FETCHED_CONTENT_LENGTH) :=
  ⟨fetch_truncation_policy.1 (str "u") (str "text/html") (str "raw")
     (str "PAGE CONTENT") none 200 (by omega) (by decide),
   (fetch_truncation_policy.2.2 pageFetcher [grantShortLink]
     [(str "400000", grantShortLink)] none (str "400000") (str "400000")
     (str "http://example.org/g") grantShortLink (by decide) (by decide)
     (by decide) (by decide) (by decide)).1⟩

/-- C7 counterexample: a 304 response is non-2xx, yet raise_for_status
does not raise on it, so the fetcher returns the extracted page text
rather than a status-tagged failure. -/
theorem status_304_not_failure :
    fetch_with_requests_bs4 (str "http://example.org")
      (.ok 304 (str "text/html") [] (some (str "cached page body")) none) =
      str "cached page body" ∧
    (str "[Error").isPrefixOf (str "cached page body") = false := by decide

/-- C7 amended: the fetcher is total over every transport outcome; a
4xx/5xx response yields a failure tagged with the status (statuses
outside 400-599 are not raised on), a timeout yields a Timeout-tagged
failure, any other request exception or unexpected exception yields a
tagged failure string; and a failure-shaped result reaching the
specific-record path is captured as a failure status - never treated as
page content - and in particular not truncated. -/
theorem fetch_failure_handling :
    (∀ (url ctype raw : List Char) (mt bt : Option (List Char))
       (status : Nat), 400 ≤ status → status < 600 →
      fetch_with_requests_bs4 url (.ok status ctype raw mt bt) =
        httpFailureMsg status url ∧
      (str "[Error").isPrefixOf (httpFailureMsg status url) = true ∧
      (∃ u v, httpFailureMsg status url = u ++ natStr status ++ v) ∧
      treatedAsContent (httpFailureMsg status url) = false) ∧
    (∀ url, fetch_with_requests_bs4 url .timeout =
      str "[Error fetching content with Requests: Timeout connecting to "
        ++ url ++ str "]") ∧
    (∀ url desc, fetch_with_requests_bs4 url (.requestExc desc) =
      str "[Error fetching content with Requests: " ++ desc ++ str "]") ∧
    (∀ url, fetch_with_requests_bs4 url .otherExc =
      str "[Unexpected error fetching content with Requests for "
        ++ url ++ str "]") ∧
    (∀ (fetchFn : List Char → List Char) (grantData : List Grant)
       (lookup : List (List Char × Grant)) (fin : Option (List Char))
       (q tid link : List Char) (g : Grant),
      is_general_request q = false →
      find_opportunity_id q lookup = some tid →
      alookup lookup tid = some g →
      truthyStr g.link = some link →
      treatedAsContent (fetchFn link) = false → fetchFn link ≠ [] →
      (assembleContext fetchFn grantData lookup fin q).fetchedContentStatus =
        some (fetchFn link)) := by
  have hsplit : str "[Error fetching content with Requests: " =
      str "[Error" ++ str " fetching content with Requests: " := by decide
  have hpre : ∀ (status : Nat) (url : List Char),
      (str "[Error").isPrefixOf (httpFailureMsg status url) = true := by
    intro status url
    unfold httpFailureMsg
    refine isPrefixOf_append_of _ _ _
      ⟨str " fetching content with Requests: " ++ httpErrorDesc status url,
        ?_⟩
    rw [hsplit, List.append_assoc]
  refine ⟨?_, fun url => rfl, fun url desc => rfl, fun url => rfl, ?_⟩
  · intro url ctype raw mt bt status h1 h2
    refine ⟨?_, hpre status url, ?_, ?_⟩
    · simp [fetch_with_requests_bs4, httpFailureMsg, h1, h2]
    · exact ⟨str "[Error fetching content with Requests: ",
        (if status < 500 then str " Client Error for url: "
         else str " Server Error for url: ") ++ url ++ str "]",
        by simp [httpFailureMsg, httpErrorDesc, natStr]⟩
    · simp [treatedAsContent, hpre status url]
  · intro fetchFn grantData lookup fin q tid link g hgen hfind hget hlink
      htreat hne
    unfold assembleContext
    simp [hgen, hfind, hget, hlink, htreat, hne]

/-- Witness for the amended C7: the 404 case of the spec scenario, both
at the fetcher and through the specific-record path of the assembler. -/
theorem fetch_failure_handling_witness :
    fetch_with_requests_bs4 (str "http://example.org/g")
      (.ok 404 (str "text/html") [] none none) =
      httpFailureMsg 404 (str "http://example.org/g") ∧
    (assembleContext notFoundFetcher [grantShortLink]
      [(str "400000", grantShortLink)] none
      (str "400000")).fetchedContentStatus =
      some (notFoundFetcher (str "http://example.org/g")) :=
  ⟨(fetch_failure_handling.1 (str "http://example.org/g")
      (str "text/html") [] none none 404 (by decide) (by decide)).1,
   fetch_failure_handling.2.2.2.2 notFoundFetcher [grantShortLink]
     [(str "400000", grantShortLink)] none (str "400000") (str "400000")
     (str "http://example.org/g") grantShortLink (by decide) (by decide)
     (by decide) (by decide) (by decide) (by decide)⟩

/-- C1: on a non-general question in which the identifier scan finds a
key of the lookup, the assembler selects exactly that one record; when
the record has no (truthy) link, no fetch is performed (the result does
not depend on the fetcher at all), the fetched-content field is absent,
and the grant context forwarded to the completion call is exactly that
one record's JSON. -/
theorem specific_record_single_selection
    (f1 f2 : List Char → List Char) (grantData : List Grant)
    (lookup : List (List Char × Grant)) (fin : Option (List Char))
    (q tid : List Char) (g : Grant)
    (hgen : is_general_request q = false)
    (hfind : find_opportunity_id q lookup = some tid)
    (hget : alookup lookup tid = some g)
    (hlink : truthyStr g.link = none) :
    assembleContext f1 grantData lookup fin q =
      ⟨[g], jsonDumpGrants [g], none, fin.getD []⟩ ∧
    assembleContext f1 grantData lookup fin q =
      assembleContext f2 grantData lookup fin q := by
  have h : ∀ f : List Char → List Char,
      assembleContext f grantData lookup fin q =
        ⟨[g], jsonDumpGrants [g], none, fin.getD []⟩ := by
    intro f
    unfold assembleContext
    simp [hgen, hfind, hget, hlink]
  exact ⟨h f1, (h f1).trans (h f2).symm⟩

/-- Witness for C1 on the question of the spec scenario, with a loaded
record 123456 lacking a link; the two distinct fetchers show the
independence from the fetcher. -/
theorem specific_record_single_selection_witness :
    assembleContext timeoutFetcher [grant123456] lookup123456 none
      (str "Tell me about grant 123456") =
      ⟨[grant123456], jsonDumpGrants [grant123456], none, []⟩ :=
  (specific_record_single_selection timeoutFetcher pageFetcher
    [grant123456] lookup123456 none (str "Tell me about grant 123456")
    (str "123456") grant123456 (by decide) (by decide) (by decide)
    (by decide)).1

/-- C2: the general-request classification holds exactly when the
lower-cased question contains both write and grant, or contains budget,
or contains both financial and district, or contains the phrase funding
need; it is invariant under changes of letter case; and on a general
question the assembler consults neither the record collection nor the
lookup nor the fetcher, selecting nothing and attaching only the
financial context string. -/
theorem general_request_classification :
    (∀ q : List Char, is_general_request q = true ↔
      (((∃ u v, lowerStr q = u ++ str "write" ++ v) ∧
        (∃ u v, lowerStr q = u ++ str "grant" ++ v)) ∨
       (∃ u v, lowerStr q = u ++ str "budget" ++ v) ∨
       ((∃ u v, lowerStr q = u ++ str "financial" ++ v) ∧
        (∃ u v, lowerStr q = u ++ str "district" ++ v)) ∨
       (∃ u v, lowerStr q = u ++ str "funding need" ++ v))) ∧
    (∀ q q' : List Char, lowerStr q = lowerStr q' →
      is_general_request q = is_general_request q') ∧
    (∀ (f1 f2 : List Char → List Char) (d1 d2 : List Grant)
       (l1 l2 : List (List Char × Grant)) (fin : Option (List Char))
       (q : List Char), is_general_request q = true →
      assembleContext f1 d1 l1 fin q = assembleContext f2 d2 l2 fin q ∧
      assembleContext f1 d1 l1 fin q = ⟨[], [], none, fin.getD []⟩) := by
  refine ⟨?_, ?_, ?_⟩
  · intro q
    simp only [is_general_request, generalOfLower, Bool.or_eq_true,
      Bool.and_eq_true, isSubstring_iff]
    rw [or_assoc, or_assoc]
  · intro q q' h
    simp only [is_general_request, h]
  · intro f1 f2 d1 d2 l1 l2 fin q hq
    have h : ∀ (f : List Char → List Char) (d : List Grant)
        (l : List (List Char × Grant)),
        assembleContext f d l fin q = ⟨[], [], none, fin.getD []⟩ := by
      intro f d l
      unfold assembleContext
      simp [hq]
    exact ⟨(h f1 d1 l1).trans (h f2 d2 l2).symm, h f1 d1 l1⟩

/-- Lookup distributes over append of association lists. -/
theorem alookup_append (m1 m2 : List (List Char × Grant))
    (key : List Char) :
    alookup (m1 ++ m2) key = (alookup m1 key).or (alookup m2 key) := by
  induction m1 with
  | nil => simp [alookup]
  | cons p rest ih =>
    obtain ⟨k1, v1⟩ := p
    by_cases h : (k1 == key) = true
    · simp [alookup, h]
    · simp [alookup, h, ih]

/-- A key is absent exactly when no entry carries it. -/
theorem alookup_eq_none_iff (m : List (List Char × Grant))
    (key : List Char) :
    alookup m key = none ↔ ∀ p ∈ m, p.1 ≠ key := by
  induction m with
  | nil => simp [alookup]
  | cons p rest ih =>
    obtain ⟨k1, v1⟩ := p
    by_cases h : k1 = key
    · subst h
      simp [alookup]
    · have hb : (k1 == key) = false := by simp [h]
      simp [alookup, hb, ih, h]

/-- Overwriting the value at one key does not change the key sequence. -/
theorem map_fst_overwrite (k : List Char) (v : Grant) :
    ∀ (m : List (List Char × Grant)),
    (overwrite m k v).map Prod.fst = m.map Prod.fst
  | [] => rfl
  | (k1, v1) :: rest => by
    have ih := map_fst_overwrite k v rest
    by_cases h : (k1 == k) = true
    · have hk : k1 = k := by simpa using h
      simp [overwrite, h, ih, hk]
    · simp [overwrite, h, ih]

/-- Lookup in the overwritten association list. -/
theorem alookup_overwrite (k : List Char) (v : Grant) (key : List Char) :
    ∀ (m : List (List Char × Grant)),
    alookup (overwrite m k v) key =
      if k = key then Option.map (fun _ => v) (alookup m k)
      else alookup m key
  | [] => by by_cases hk : k = key <;> simp [overwrite, alookup, hk]
  | (k1, v1) :: rest => by
    have ih := alookup_overwrite k v key rest
    by_cases h1 : k1 = k
    · subst h1
      by_cases hk : k1 = key
      · subst hk
        simp [overwrite, alookup, ih]
      · have hb : (k1 == key) = false := by simp [hk]
        simp [overwrite, alookup, hb, ih, hk]
    · have hb1 : (k1 == k) = false := by simp [h1]
      by_cases hk2 : k1 = key
      · subst hk2
        have hkk : ¬k = k1 := fun h => h1 h.symm
        simp [overwrite, alookup, hb1, hkk, ih]
      · have hb2 : (k1 == key) = false := by simp [hk2]
        simp [overwrite, alookup, hb1, hb2, ih]

/-- Lookup after a dict assignment: the assigned key now maps to the
assigned value, every other key is untouched. -/
theorem dictInsert_alookup (m : List (List Char × Grant))
    (k : List Char) (v : Grant) (key : List Char) :
    alookup (dictInsert m k v) key =
      if k = key then some v else alookup m key := by
  unfold dictInsert
  by_cases hpres : (alookup m k).isSome = true
  · rw [if_pos hpres, alookup_overwrite]
    by_cases hk : k = key
    · subst hk
      obtain ⟨g0, hg0⟩ := Option.isSome_iff_exists.mp hpres
      simp [hg0]
    · simp [hk]
  · rw [if_neg hpres, alookup_append]
    have hnone : alookup m k = none :=
      Option.not_isSome_iff_eq_none.mp (by simpa using hpres)
    by_cases hk : k = key
    · subst hk
      simp [hnone, alookup]
    · have hb : (k == key) = false := by simp [hk]
      simp [alookup, hb, hk]

/-- One load step keeps the lookup keys without duplicates and keeps
every stored value keyed by its own truthy opportunityID. -/
theorem loadStep_inv (m : List (List Char × Grant)) (g : Grant)
    (h1 : (m.map Prod.fst).Nodup)
    (h2 : ∀ k gg, alookup m k = some gg →
      truthyStr gg.opportunityID = some k) :
    ((loadStep m g).map Prod.fst).Nodup ∧
    (∀ k gg, alookup (loadStep m g) k = some gg →
      truthyStr gg.opportunityID = some k) := by
  cases hid : truthyStr g.opportunityID with
  | none =>
    have hstep : loadStep m g = m := by
      unfold loadStep
      rw [hid]
    rw [hstep]
    exact ⟨h1, h2⟩
  | some k0 =>
    have hstep : loadStep m g = dictInsert m k0 g := by
      unfold loadStep
      rw [hid]
    rw [hstep]
    constructor
    · unfold dictInsert
      by_cases hpres : (alookup m k0).isSome = true
      · rw [if_pos hpres, map_fst_overwrite]
        exact h1
      · rw [if_neg hpres, List.map_append]
        have hnone : alookup m k0 = none :=
          Option.not_isSome_iff_eq_none.mp (by simpa using hpres)
        have hk : k0 ∉ m.map Prod.fst := by
          intro hmem
          obtain ⟨p, hp, hfst⟩ := List.mem_map.mp hmem
          exact (alookup_eq_none_iff m k0).mp hnone p hp hfst
        exact h1.append (List.nodup_singleton k0)
          ((List.disjoint_singleton).mpr hk)
    · intro k gg hlook
      rw [dictInsert_alookup] at hlook
      by_cases hk : k0 = k
      · rw [if_pos hk] at hlook
        obtain rfl : g = gg := by injection hlook
        rw [hid, hk]
      · rw [if_neg hk] at hlook
        exact h2 k gg hlook

/-- The load fold preserves the two lookup invariants from any starting
state. -/
theorem load_foldl_inv (raw : List Grant) :
    ∀ m, (m.map Prod.fst).Nodup →
      (∀ k g, alookup m k = some g → truthyStr g.opportunityID = some k) →
      (((raw.foldl loadStep m).map Prod.fst).Nodup ∧
       ∀ k g, alookup (raw.foldl loadStep m) k = some g →
         truthyStr g.opportunityID = some k) := by
  induction raw with
  | nil => intro m hm1 hm2; exact ⟨hm1, hm2⟩
  | cons g rest ih =>
    intro m hm1 hm2
    obtain ⟨h1', h2'⟩ := loadStep_inv m g hm1 hm2
    simpa [List.foldl_cons] using ih (loadStep m g) h1' h2'

/-- C6 counterexample: a record lacking opportunityID is not dropped
from the loaded collection the Keyword Matcher iterates over - the
matcher even selects it - it is only absent from the id lookup; and two
loaded records may share one opportunityID. -/
theorem idless_record_still_iterated :
    (loadGrantData [grantNoId]).1 = [grantNoId] ∧
    select_relevant_grants_by_keyword (str "erosion control")
      (loadGrantData [grantNoId]).1 MAX_CONTEXT_GRANTS = [grantNoId] ∧
    (loadGrantData [grantNoId]).2 = [] ∧
    (loadGrantData [grantDupA, grantDupB]).1 =
      [grantDupA, grantDupB] := by decide

/-- C6 amended: the loaded list is the parsed input unchanged (id-less
records included, duplicate ids included), while the id lookup built at
load time has pairwise distinct keys and stores only records with a
truthy opportunityID, each under its own id. -/
theorem load_invariants (raw : List Grant) :
    (loadGrantData raw).1 = raw ∧
    ((loadGrantData raw).2.map Prod.fst).Nodup ∧
    (∀ k g, alookup (loadGrantData raw).2 k = some g →
      truthyStr g.opportunityID = some k) := by
  have h := load_foldl_inv raw [] (by simp) (by intro k g h; simp [alookup] at h)
  exact ⟨rfl, h.1, h.2⟩

/-- Witness for the amended C6, at a load of two records sharing one
id: the record the lookup retains is keyed by its own id. -/
theorem load_invariants_witness :
    truthyStr grantDupB.opportunityID = some (str "300000") :=
  (load_invariants [grantDupA, grantDupB]).2.2 (str "300000") grantDupB
    (by decide)

/-- A list whose last element is known splits off that element. -/
theorem dropLast_append_of_getLast? {α : Type} :
    ∀ (l : List α) (x : α), l.getLast? = some x → l.dropLast ++ [x] = l
  | [], x, h => by simp at h
  | [a], x, h => by
    obtain rfl : a = x := by simpa using h
    rfl
  | a :: b :: t, x, h => by
    have ih := dropLast_append_of_getLast? (b :: t) x (by simpa using h)
    simpa [List.dropLast] using congrArg (a :: ·) ih

/-- Dropping a strict prefix does not change the last element. -/
theorem getLast?_drop_eq {α : Type} (l : List α) (k : Nat)
    (hk : k < l.length) : (l.drop k).getLast? = l.getLast? := by
  conv_rhs => rw [← List.take_append_drop k l]
  rw [List.getLast?_append_of_ne_nil]
  intro hnil
  have := congrArg List.length hnil
  simp [List.length_drop] at this
  omega

/-- C8: the completion requester includes at most
2 * MAX_HISTORY_LENGTH - 1 history entries before the current turn,
those entries are a contiguous, order-preserving slice of the supplied
history just before its final entry, and the final entry of the built
message sequence is the current user turn (with the context blocks
appended inline); when the supplied history ends in a user turn the
completion call is made with exactly these messages. -/
theorem history_truncation (fullHistory : List Turn)
    (grantJson : List Char) (fetched : Option (List Char))
    (finJson : List Char) (latest : Turn)
    (hlast : fullHistory.getLast? = some latest) :
    messagesForApi fullHistory grantJson fetched finJson =
      ⟨str "system", system_prompt⟩ ::
        (limitedHistory fullHistory ++
          [⟨str "user",
            userContentParts latest.content grantJson fetched finJson⟩]) ∧
    (limitedHistory fullHistory).length ≤ 2 * MAX_HISTORY_LENGTH - 1 ∧
    (∃ pre, pre ++ limitedHistory fullHistory ++ [latest] = fullHistory) ∧
    (messagesForApi fullHistory grantJson fetched finJson).getLast? =
      some ⟨str "user",
        userContentParts latest.content grantJson fetched finJson⟩ ∧
    (∀ llm : List Turn → LlmOutcome, latest.role = str "user" →
      get_openai_response true llm fullHistory grantJson fetched finJson =
        some (llmAnswer
          (llm (messagesForApi fullHistory grantJson fetched finJson)))) := by
  have hne : fullHistory ≠ [] := by
    intro h
    rw [h] at hlast
    simp at hlast
  have hpos : 0 < fullHistory.length := List.length_pos.mpr hne
  have heq : messagesForApi fullHistory grantJson fetched finJson =
      ⟨str "system", system_prompt⟩ ::
        (limitedHistory fullHistory ++
          [⟨str "user",
            userContentParts latest.content grantJson fetched finJson⟩]) := by
    unfold messagesForApi
    rw [List.getLastD_eq_getLast?, hlast]
    rfl
  refine ⟨heq, ?_, ?_, ?_, ?_⟩
  · simp only [limitedHistory, List.length_dropLast, List.length_drop,
      MAX_HISTORY_LENGTH]
    omega
  · have hk : fullHistory.length - MAX_HISTORY_LENGTH * 2 <
        fullHistory.length := by
      have h10 : MAX_HISTORY_LENGTH = 10 := rfl
      omega
    have h1 : (fullHistory.drop
        (fullHistory.length - MAX_HISTORY_LENGTH * 2)).getLast? =
        some latest := by
      rw [getLast?_drop_eq fullHistory _ hk, hlast]
    refine ⟨fullHistory.take (fullHistory.length - MAX_HISTORY_LENGTH * 2),
      ?_⟩
    rw [limitedHistory, List.append_assoc,
      dropLast_append_of_getLast? _ _ h1, List.take_append_drop]
  · rw [heq]
    rw [show (⟨str "system", system_prompt⟩ :: (limitedHistory fullHistory ++
      [⟨str "user",
        userContentParts latest.content grantJson fetched finJson⟩])) =
      ((⟨str "system", system_prompt⟩ :: limitedHistory fullHistory) ++
        [⟨str "user",
          userContentParts latest.content grantJson fetched finJson⟩])
      from rfl]
    exact List.getLast?_concat _
  · intro llm hrole
    unfold get_openai_response
    rw [hlast]
    simp [hrole]

/-- Witness for C8 on a concrete three-turn history ending in the
current user turn. -/
theorem history_truncation_witness :
    (limitedHistory [turnU "hi", turnA "hello", turnU "next"]).length ≤
      2 * MAX_HISTORY_LENGTH - 1 ∧
    (∃ pre, pre ++ limitedHistory [turnU "hi", turnA "hello", turnU "next"]
      ++ [turnU "next"] = [turnU "hi", turnA "hello", turnU "next"]) ∧
    get_openai_response true okLlm [turnU "hi", turnA "hello", turnU "next"]
      (str "CTX") none [] =
      some (llmAnswer (okLlm (messagesForApi
        [turnU "hi", turnA "hello", turnU "next"] (str "CTX") none []))) :=
  ⟨(history_truncation [turnU "hi", turnA "hello", turnU "next"]
      (str "CTX") none [] (turnU "next") (by decide)).2.1,
   (history_truncation [turnU "hi", turnA "hello", turnU "next"]
      (str "CTX") none [] (turnU "next") (by decide)).2.2.1,
   (history_truncation [turnU "hi", turnA "hello", turnU "next"]
      (str "CTX") none [] (turnU "next") (by decide)).2.2.2.2 okLlm
     (by decide)⟩

/-- C9 counterexample: a request with a question but a malformed
(non-list) history is answered with the generic 500 server error, not
with a client error. -/
theorem malformed_history_not_client_error :
    chat pageFetcher true okLlm [] [] none
      ⟨some (str "hello there"), .notAList⟩ =
      .serverError (str "An internal server error occurred.") := by decide

/-- C9 amended: a missing question is reported as a client error;
malformed history is not validated - a non-list history raises inside
the handler and surfaces as the generic server error - and every
request with a question and a well-formed (or absent) history is
answered with a normal answer string, whatever the fetch and completion
outcomes; so an error-shaped response arises only from the
missing-question and unhandled-exception cases. -/
theorem chat_error_shapes (fetchFn : List Char → List Char)
    (clientOk : Bool) (llm : List Turn → LlmOutcome)
    (grantData : List Grant) (lookup : List (List Char × Grant))
    (fin : Option (List Char)) (req : ChatRequest) :
    (req.question = none →
      chat fetchFn clientOk llm grantData lookup fin req =
        .clientError (str "Missing \x27question\x27 in request body")) ∧
    (∀ q, req.question = some q → req.history = .notAList →
      chat fetchFn clientOk llm grantData lookup fin req =
        .serverError (str "An internal server error occurred.")) ∧
    (∀ q conv, req.question = some q → historyTurns req.history = some conv →
      ∃ s, chat fetchFn clientOk llm grantData lookup fin req =
        .answer s) := by
  refine ⟨?_, ?_, ?_⟩
  · intro h
    simp [chat, h]
  · intro q hq hh
    simp [chat, hq, hh, historyTurns]
  · intro q conv hq hh
    simp only [chat, hq, hh]
    by_cases hc : clientOk = true
    · subst hc
      unfold get_openai_response
      rw [List.getLast?_concat]
      simp
    · have hc' : clientOk = false := by
        cases clientOk
        · rfl
        · exact absurd rfl hc
      subst hc'
      unfold get_openai_response
      simp

/-- Witness for the amended C9: a missing question gives the client
error, and a well-formed request gives an answer. -/
theorem chat_error_shapes_witness :
    chat pageFetcher true okLlm [] [] none ⟨none, .absent⟩ =
      .clientError (str "Missing \x27question\x27 in request body") ∧
    (∃ s, chat pageFetcher true okLlm [] [] none
      ⟨some (str "hello there"), .turns []⟩ = .answer s) :=
  ⟨(chat_error_shapes pageFetcher true okLlm [] [] none
      ⟨none, .absent⟩).1 rfl,
   (chat_error_shapes pageFetcher true okLlm [] [] none
      ⟨some (str "hello there"), .turns []⟩).2.2 (str "hello there") []
     rfl rfl⟩

/-- Witness for C2: case-invariance at BUDGET versus budget, and the
spec scenario question with a loaded financial blob selects no record
and attaches only the financial context. -/
theorem general_request_classification_witness :
    is_general_request (str "BUDGET") = is_general_request (str "budget") ∧
    is_general_request (str "Budget") = true ∧
    assembleContext pageFetcher erosionGrants lookup123456
      (some (str "FIN")) (str "What\x27s our budget for technology?") =
      ⟨[], [], none, str "FIN"⟩ :=
  ⟨general_request_classification.2.1 (str "BUDGET") (str "budget")
     (by decide),
   by decide,
   (general_request_classification.2.2 pageFetcher timeoutFetcher
     erosionGrants [] lookup123456 [] (some (str "FIN"))
     (str "What\x27s our budget for technology?") (by decide)).2⟩

end GrantChat
